import Mathlib

/-!
Shallow embedding of the INARA retrieval core: the document chunker and
embedding builder of `LLM/train.py` (`DocumentProcessor`), the retriever,
function-call parser and dispatcher of `LLM/main.py` (`SimpleRAG`), and the
GUI variant of the retriever in `app/src/Function/tools/rag.py`.  Python
strings are modelled as `List Char` (indexing and slicing are per character),
float32 vectors as integer coordinate lists (no verified property depends on
real arithmetic), and each external service call (embedding API, generation
API, function implementations) as an explicit oracle argument, with `Option`
or `Except` modelling the caught exception paths.
-/

namespace INARA

/-- Embedding vectors stored in the faiss index; coordinates are modelled as
integers. -/
abbrev Vec := List Int

/-- Squared Euclidean (L2) distance, the metric of `faiss.IndexFlatL2`
(`LLM/train.py` line 190). -/
def sqDist (u v : Vec) : Int :=
  ((u.zip v).map (fun p => (p.1 - p.2) ^ 2)).sum

/-- Model of `faiss.IndexFlatL2.search` for a single query vector, per the
documented contract (spec section 4.4): the `min k n` nearest stored vectors
as `(distance, index)` pairs in ascending distance order, padded to exactly
`k` entries with the `-1` sentinel index when fewer than `k` vectors are
stored. -/
def index_search (db : List Vec) (qv : Vec) (k : Nat) : List (Int × Int) :=
  let scored := db.enum.map (fun p => (sqDist qv p.2, (p.1 : Int)))
  let top := (scored.mergeSort (fun a b => decide (a.1 ≤ b.1))).take k
  top ++ List.replicate (k - top.length) ((0 : Int), (-1 : Int))

/-- Per-chunk metadata record appended by
`DocumentProcessor.create_embeddings` (`LLM/train.py` lines 150-156). -/
structure ChunkInfo where
  doc_idx : Nat
  doc_id : String
  doc_type : String
  chunk_idx : Nat
  text : List Char
deriving Repr, DecidableEq, Inhabited

/-- Document dictionary built by the loader (`LLM/train.py` lines 59-122);
`chunks_count` is absent (`none`) until `create_embeddings` sets it
(line 162), matching `doc.get ("chunks_count", 0)` reads. -/
structure Document where
  id : String
  source : String
  text : List Char
  dtype : String
  chunks_count : Option Nat := none
deriving Repr, DecidableEq, Inhabited

/-- Result dictionary built by `SimpleRAG.search_documents`
(`LLM/main.py` lines 146-151). -/
structure QueryResult where
  id : String
  chunk_idx : Nat
  text : List Char
  score : Int
deriving Repr, DecidableEq, Inhabited

/-- In-memory state of a loaded `SimpleRAG`: the faiss index contents plus
the two unpickled metadata lists (`LLM/main.py` lines 84-90). -/
structure Retriever where
  db : List Vec
  documents : List Document
  chunks_info : List ChunkInfo
deriving Repr, DecidableEq, Inhabited

/-- SimpleRAG.search_documents (`LLM/main.py` lines 126-153; the copy in
`app/src/Function/tools/rag.py` lines 127-166 is identical): the query is
embedded by an external call, modelled by taking the query vector `qv`
directly; the index is searched for `top_k` neighbours; every returned index
other than the `-1` sentinel is resolved against `chunks_info` and emitted
as a `QueryResult` carrying the paired L2 distance as `score`. -/
def search_documents (r : Retriever) (qv : Vec) (top_k : Nat) : List QueryResult :=
  ((index_search r.db qv top_k).filter (fun p => p.2 != -1)).map (fun p =>
    let ci := r.chunks_info.getD p.2.toNat default
    { id := ci.doc_id, chunk_idx := ci.chunk_idx, text := ci.text, score := p.1 })

/-- Fuel-indexed recursion underlying `_chunk_text`; the fuel is instantiated
with the text length, which bounds the number of produced chunks whenever
`chunk_size > 0` (for `chunk_size = 0` the Python `range` call raises
`ValueError`, outside the modelled domain). -/
def chunkGo : Nat → List Char → Nat → List (List Char)
  | 0, _, _ => []
  | fuel + 1, text, c =>
    if text.isEmpty then []
    else text.take c :: chunkGo fuel (text.drop c) c

/-- DocumentProcessor._chunk_text (`LLM/train.py` lines 124-126):
`[text[i:i + chunk_size] for i in range (0, len (text), chunk_size)]`,
the consecutive windows `text[i*C .. i*C+C)`. -/
def _chunk_text (text : List Char) (chunk_size : Nat) : List (List Char) :=
  chunkGo text.length text chunk_size

/-- State of a `DocumentProcessor` after `create_embeddings`
(`LLM/train.py` lines 20-26, 164-166). -/
structure TrainState where
  documents : List Document
  embeddings : List Vec
  chunks_info : List ChunkInfo
deriving Repr, DecidableEq

/-- Paired appends of the nested loop of `DocumentProcessor.create_embeddings`
(`LLM/train.py` lines 136-159): for each document in order and each of its
chunks in order, a successful embedding appends the vector and its
`ChunkInfo` record in lockstep; the caught per-chunk exception (`continue`)
skips both appends, modelled by the `none` of the `embed` oracle and
`filterMap`. -/
def createPairs (docs : List Document) (embed : List Char → Option Vec) :
    List (Vec × ChunkInfo) :=
  docs.enum.flatMap (fun d =>
    (_chunk_text d.2.text 1000).enum.filterMap (fun ch =>
      (embed ch.2).map (fun v =>
        (v, ⟨d.1, d.2.id, d.2.dtype, ch.1, ch.2⟩))))

/-- DocumentProcessor.create_embeddings (`LLM/train.py` lines 128-169):
chunk every document at the default chunk size 1000, embed each chunk
through the external API (oracle `embed`), and set
`doc["chunks_count"] = len (chunks)` on every document (line 162), counting
all produced chunks whether or not their embedding succeeded. -/
def create_embeddings (docs : List Document)
    (embed : List Char → Option Vec) : TrainState :=
  { documents := docs.map (fun d =>
      { d with chunks_count := some (_chunk_text d.text 1000).length }),
    embeddings := (createPairs docs embed).map Prod.fst,
    chunks_info := (createPairs docs embed).map Prod.snd }

/-- Entry of the list built by `SimpleRAG.list_available_documents`
(`LLM/main.py` lines 216-223). -/
structure DocListing where
  id : String
  source : String
  size : Nat
  chunks : Nat
deriving Repr, DecidableEq

/-- Return dictionary of `SimpleRAG.list_available_documents`
(`LLM/main.py` lines 225-229). -/
structure DocListResult where
  status : String
  count : Nat
  documents : List DocListing
deriving Repr, DecidableEq

/-- SimpleRAG.list_available_documents (`LLM/main.py` lines 214-229): id,
source, text size and `doc.get ("chunks_count", 0)` for every loaded
document. -/
def list_available_documents (docs : List Document) : DocListResult :=
  let doc_list := docs.map (fun d =>
    (⟨d.id, d.source, d.text.length, d.chunks_count.getD 0⟩ : DocListing))
  ⟨"success", doc_list.length, doc_list⟩

/-- On-disk artifact pair at one path: `<path>.index` (faiss blob) and
`<path>.pkl` (pickled documents and chunk records); `none` models an absent
file.  faiss and pickle serialization are modelled as the identity on
content. -/
structure FS where
  indexFile : Option (List Vec)
  pklFile : Option (List Document × List ChunkInfo)
deriving Repr, DecidableEq

/-- DocumentProcessor.save_to_vector_store (`LLM/train.py` lines 171-204):
build an IndexFlatL2 over all embeddings and write it to `<path>.index`;
pickle `{documents, chunks_info}` to `<path>.pkl`.  With no embeddings the
method raises ValueError (line 180), modelled by `none` (the
create_embeddings retry at line 176 is a no-op on an already-built state). -/
def save_to_vector_store (st : TrainState) : Option FS :=
  if st.embeddings.isEmpty then none
  else some ⟨some st.embeddings, some (st.documents, st.chunks_info)⟩

/-- SimpleRAG.load_vector_store (`LLM/main.py` lines 75-92; identical copy
in `app/src/Function/tools/rag.py` lines 108-125): existence of
`<path>.index` is checked first, then `<path>.pkl`, both before anything is
read, and a missing file raises FileNotFoundError; only then are the index
and the two metadata lists populated. -/
def load_vector_store (fs : FS) (path : String) : Except String Retriever :=
  match fs.indexFile with
  | none => .error ("Vector store not found at " ++ path ++ ".index")
  | some db =>
    match fs.pklFile with
    | none => .error ("Vector store data not found at " ++ path ++ ".pkl")
    | some d => .ok ⟨db, d.1, d.2⟩

/-- Lazy argument group: the shortest run of non-newline characters up to a
close paren, as matched by the trailing part of the Python pattern
FUNCTION_CALL\[(.*?)\]\((.*?)\) — a dot does not match a newline. -/
def findClose : List Char → Option (List Char × List Char)
  | [] => none
  | c :: rest =>
    if c = ')' then some ([], rest)
    else if c = '\n' then none
    else (findClose rest).map (fun p => (c :: p.1, p.2))

/-- Lazy name-then-args match after the literal "FUNCTION_CALL[": the name
group extends, by regex backtracking, only as far as needed to reach a close
bracket followed by an open paren whose argument group completes. -/
def matchName : List Char → Option (List Char × List Char)
  | [] => none
  | ']' :: rest =>
    match rest with
    | '(' :: rest2 =>
      match findClose rest2 with
      | some (args, _) => some ([], args)
      | none => (matchName rest).map (fun p => (']' :: p.1, p.2))
    | _ => (matchName rest).map (fun p => (']' :: p.1, p.2))
  | '\n' :: _ => none
  | c :: rest => (matchName rest).map (fun p => (c :: p.1, p.2))

/-- Leftmost match: `re.findall` scans every start position left to right
and `matches[0]` keeps only the first successful match
(`LLM/main.py` lines 237-241). -/
def findFunctionCall : List Char → Option (List Char × List Char)
  | [] => none
  | c :: rest =>
    if ("FUNCTION_CALL[".toList).isPrefixOf (c :: rest) then
      match matchName ((c :: rest).drop 14) with
      | some r => some r
      | none => findFunctionCall rest
    else findFunctionCall rest

/-- Python str.strip: remove leading and trailing whitespace. -/
def pyStrip (s : List Char) : List Char :=
  ((s.dropWhile Char.isWhitespace).reverse.dropWhile Char.isWhitespace).reverse

/-- pair.split (":", 1) when a colon is present: split at the first colon. -/
def splitFirstColon : List Char → Option (List Char × List Char)
  | [] => none
  | c :: rest =>
    if c = ':' then some ([], rest)
    else (splitFirstColon rest).map (fun p => (c :: p.1, p.2))

/-- Python dict assignment d[k] = v: overwrite the value in place when the
key exists, else append, preserving insertion order. -/
def dictSet (d : List (String × String)) (k v : String) :
    List (String × String) :=
  if d.any (fun p => p.1 == k) then
    d.map (fun p => if p.1 == k then (k, v) else p)
  else d ++ [(k, v)]

/-- Argument parsing of `SimpleRAG.parse_function_call`
(`LLM/main.py` lines 243-253): an empty argument string yields no arguments;
otherwise split on commas, split each piece at its first colon into a
stripped key and value, and assign a piece without a colon to the fallback
key "value". -/
def parse_args (args_str : List Char) : List (String × String) :=
  if args_str.isEmpty then []
  else
    (args_str.splitOn ',').foldl (fun d pair =>
      match splitFirstColon pair with
      | some kv =>
        dictSet d (String.mk (pyStrip kv.1)) (String.mk (pyStrip kv.2))
      | none => dictSet d "value" (String.mk (pyStrip pair))) []

/-- Outcome dictionary of `parse_function_call`: either detected = False, or
detected = True with the function name and the parsed argument dict. -/
inductive ParseResult where
  | noCall
  | call (function : String) (args : List (String × String))
deriving Repr, DecidableEq

/-- SimpleRAG.parse_function_call (`LLM/main.py` lines 231-261): scan the
response text for FUNCTION_CALL\[(.*?)\]\((.*?)\), keep only the first
match, strip the function name, and parse the comma-separated key:value
argument list. -/
def parse_function_call (response_text : List Char) : ParseResult :=
  match findFunctionCall response_text with
  | none => .noCall
  | some r => .call (String.mk (pyStrip r.1)) (parse_args r.2)

/-- Values forwarded by the dispatcher: raw strings, or integers for
all-digit strings. -/
inductive PyVal where
  | str (s : String)
  | int (n : Nat)
deriving Repr, DecidableEq

/-- Python str.isdigit for the ASCII strings the model emits: nonempty and
all characters are decimal digits. -/
def pyIsDigit (s : String) : Bool :=
  !s.toList.isEmpty && s.toList.all Char.isDigit

/-- Python int (s) on an all-digit string. -/
def digitsToNat (s : String) : Nat :=
  s.toList.foldl (fun a c => 10 * a + (c.toNat - 48)) 0

/-- Coercion at `LLM/main.py` lines 277-281: an all-digit raw string becomes
an int, anything else stays a string. -/
def coerce_arg (v : String) : PyVal :=
  if pyIsDigit v then .int (digitsToNat v) else .str v

/-- Registry built by `SimpleRAG._register_functions` (`LLM/main.py` lines
94-124): the five functions with their declared parameter lists; the
callables themselves are supplied by the `impl` oracle of
`execute_function`. -/
def registered_functions : List (String × List String) :=
  [("search_documents", ["query", "top_k"]),
   ("get_current_time", []),
   ("open_browser", ["url"]),
   ("summarize_document", ["doc_id"]),
   ("list_available_documents", [])]

/-- Argument filtering and coercion of `SimpleRAG.execute_function`
(`LLM/main.py` lines 271-281): only parameters declared for the function are
forwarded, in declaration order, each coerced by `coerce_arg`. -/
def processed_args (params : List String)
    (args : List (String × String)) : List (String × PyVal) :=
  params.filterMap (fun p => (args.lookup p).map (fun v => (p, coerce_arg v)))

/-- Result of `execute_function`: the callee's return value, or the
structured error dictionary the dispatcher builds instead of raising. -/
inductive ExecResult where
  | ok (v : PyVal)
  | errorPayload (message : String)
deriving Repr, DecidableEq

/-- SimpleRAG.execute_function (`LLM/main.py` lines 263-287): an
unregistered name yields the error dictionary at line 266; otherwise the
callee (oracle `impl`) runs on the processed arguments and any exception it
raises (`Except.error`) is caught and returned as the error dictionary at
line 287. -/
def execute_function
    (impl : String → List (String × PyVal) → Except String PyVal)
    (function_name : String) (args : List (String × String)) : ExecResult :=
  match registered_functions.lookup function_name with
  | none => .errorPayload ("Function " ++ function_name ++ " not found")
  | some params =>
    match impl function_name (processed_args params args) with
    | .ok v => .ok v
    | .error e => .errorPayload ("Error executing function: " ++ e)

/-- SimpleRAG.generate_response of `LLM/main.py` (lines 289-362): the first
generation call is the oracle `gen1` (`Except.error` is the caught
exception text); a detected function-call directive is dispatched through
`execute_function` and its result serialized into the follow-up prompt of
the second generation call, the oracle `gen2`; any failure lands in the
except arm at line 361, which returns a plain
"Error saat menghasilkan respons: ..." string with no Markdown heading. -/
def main_generate_response
    (impl : String → List (String × PyVal) → Except String PyVal)
    (gen1 : Except String String)
    (gen2 : ExecResult → Except String String) : String :=
  match gen1 with
  | .error e => "Error saat menghasilkan respons: " ++ e
  | .ok response_text =>
    match parse_function_call response_text.toList with
    | .noCall => response_text
    | .call f args =>
      match gen2 (execute_function impl f args) with
      | .error e => "Error saat menghasilkan respons: " ++ e
      | .ok follow_up => follow_up

/-- SimpleRAG.generate_response of `app/src/Function/tools/rag.py` (lines
168-218): on success the model text is wrapped into a Markdown answer with
a source list; a caught generation failure returns a Markdown document
headed "# Error" (line 218). -/
def rag_generate_response (gen : Except String String) (query : String)
    (context_chunks : List QueryResult) : String :=
  match gen with
  | .ok response_text =>
    "# Jawaban untuk: " ++ query ++ "\n\n" ++ response_text ++
      "\n\n## Sumber Informasi\n\n" ++
      String.join (context_chunks.map (fun c => "- " ++ c.id ++ "\n"))
  | .error e => "# Error\n\n" ++ ("Error saat menghasilkan respons: " ++ e)

/-- SimpleRAG.process_query of `app/src/Function/tools/rag.py` (lines
220-252): retrieval (oracle `search`, whose error is any exception escaping
`search_documents`), the empty-result Markdown notice, generation via
`rag_generate_response`, and the outer except arm returning a Markdown
"# Error" document (lines 245-252). -/
def rag_process_query (search : Except String (List QueryResult))
    (gen : Except String String) (query : String) : String :=
  match search with
  | .error e =>
    "# Error\n\n" ++ ("Terjadi kesalahan saat memproses query: " ++ e)
  | .ok results =>
    if results.isEmpty then
      "# Tidak ada informasi\n\nMaaf, saya tidak menemukan informasi yang relevan untuk pertanyaan: "
        ++ query
    else rag_generate_response gen query results

/-! Concrete fixtures used by claim witnesses and the C10 failing-chunk
scenario. -/

/-- Two-character text document, one chunk at chunk size 1000. -/
def docAB : Document :=
  { id := "a.txt", source := "data/a.txt", text := ['a', 'b'], dtype := "txt" }

/-- One-character text document. -/
def docA : Document :=
  { id := "a.txt", source := "s", text := ['a'], dtype := "txt" }

/-- 1001-character text document: two chunks at chunk size 1000, the second
of length 1. -/
def docBig : Document :=
  { id := "big.txt", source := "s", text := List.replicate 1001 'a',
    dtype := "txt" }

/-- Embedding oracle that always succeeds, mapping a chunk to its length. -/
def embedLen : List Char → Option Vec :=
  fun c => some [(c.length : Int)]

/-- Embedding oracle that fails on every chunk shorter than 1000
characters, modelling a per-chunk embedding exception. -/
def embedOnlyFull : List Char → Option Vec :=
  fun c => if c.length = 1000 then some [1] else none

/-! Helper lemmas about the chunker. -/

/-- Recurrence for the ceiling division counting the chunks. -/
theorem ceil_div_rec (L c : Nat) (hc : 0 < c) (hL : 0 < L) :
    (L + c - 1) / c = (L - c + c - 1) / c + 1 := by
  rcases le_or_lt L c with h | h
  · have h0 : L - c = 0 := by omega
    have h1 : (L + c - 1) / c = 1 := by
      apply Nat.div_eq_of_lt_le (by omega) (by omega)
    have h2 : (c - 1) / c = 0 := Nat.div_eq_of_lt (by omega)
    rw [h0, h1]
    simp [h2]
  · have e : L + c - 1 = (L - c + c - 1) + c := by omega
    rw [e, Nat.add_div_right _ hc]

/-- Closed form of the fuel recursion: the i-th chunk is the window
`text[i*c .. i*c + c)`. -/
theorem chunkGo_eq (c : Nat) (hc : 0 < c) :
    ∀ (fuel : Nat) (text : List Char), text.length ≤ fuel →
      chunkGo fuel text c =
        (List.range ((text.length + c - 1) / c)).map
          (fun i => (text.drop (i * c)).take c) := by
  intro fuel
  induction fuel with
  | zero =>
    intro text hlen
    have : text = [] := List.eq_nil_of_length_eq_zero (by omega)
    subst this
    simp [chunkGo, Nat.div_eq_of_lt (by omega : c - 1 < c)]
  | succ fuel ih =>
    intro text hlen
    by_cases hnil : text = []
    · subst hnil
      simp [chunkGo, Nat.div_eq_of_lt (by omega : c - 1 < c)]
    · have hL : 0 < text.length := List.length_pos.mpr hnil
      have hstep : chunkGo (fuel + 1) text c =
          text.take c :: chunkGo fuel (text.drop c) c := by
        simp [chunkGo, hnil]
      rw [hstep, ih (text.drop c) (by simp; omega)]
      rw [List.length_drop, ceil_div_rec text.length c hc hL,
        List.range_succ_eq_map, List.map_cons, List.map_map]
      simp only [List.cons.injEq]
      refine ⟨by simp, ?_⟩
      apply List.map_congr_left
      intro i _
      simp [Function.comp, Nat.succ_mul, List.drop_drop, Nat.add_comm]

theorem chunk_text_closed_form (text : List Char) (c : Nat) (hc : 0 < c) :
    _chunk_text text c =
      (List.range ((text.length + c - 1) / c)).map
        (fun i => (text.drop (i * c)).take c) :=
  chunkGo_eq c hc text.length text le_rfl

theorem chunk_text_length (text : List Char) (c : Nat) (hc : 0 < c) :
    (_chunk_text text c).length = (text.length + c - 1) / c := by
  rw [chunk_text_closed_form text c hc]
  simp

theorem chunk_text_join (text : List Char) (c : Nat) (hc : 0 < c) :
    (_chunk_text text c).flatten = text := by
  have main : ∀ (fuel : Nat) (t : List Char), t.length ≤ fuel →
      (chunkGo fuel t c).flatten = t := by
    intro fuel
    induction fuel with
    | zero =>
      intro t hlen
      have : t = [] := List.eq_nil_of_length_eq_zero (by omega)
      subst this
      simp [chunkGo]
    | succ fuel ih =>
      intro t hlen
      by_cases hnil : t = []
      · subst hnil
        simp [chunkGo]
      · have hL : 0 < t.length := List.length_pos.mpr hnil
        have hstep : chunkGo (fuel + 1) t c =
            t.take c :: chunkGo fuel (t.drop c) c := by
          simp [chunkGo, hnil]
        rw [hstep, List.flatten_cons, ih (t.drop c) (by simp; omega)]
        exact List.take_append_drop c t
  exact main text.length text le_rfl

/-- Every chunk index addresses a position strictly inside the text. -/
theorem chunk_index_bound (L c i : Nat) (hc : 0 < c) (hi : i < (L + c - 1) / c) :
    i * c < L := by
  have h1 : (L + c - 1) / c * c ≤ L + c - 1 := Nat.div_mul_le_self _ _
  have h2 : (i + 1) * c ≤ (L + c - 1) / c * c :=
    Nat.mul_le_mul_right c hi
  have h3 : (i + 1) * c = i * c + c := Nat.succ_mul i c
  omega

/-- C3: for every text of length L and chunk_size C > 0, `_chunk_text`
returns exactly `ceil (L / C)` chunks — zero when the text is empty, never a
single empty chunk — the i-th chunk is the consecutive window
`text[i*C .. i*C+C)`, every non-final chunk has length exactly C, and the
concatenation of all chunks in order equals the original text. -/
theorem C3_chunk_text_spec (text : List Char) (c : Nat) (hc : 0 < c) :
    (_chunk_text text c).length = (text.length + c - 1) / c ∧
    (text = [] → _chunk_text text c = []) ∧
    (∀ ch ∈ _chunk_text text c, ch ≠ []) ∧
    (∀ (i : Nat) (h : i < (_chunk_text text c).length),
      (_chunk_text text c).get ⟨i, h⟩ = (text.drop (i * c)).take c) ∧
    (∀ (i : Nat) (h : i < (_chunk_text text c).length),
      i + 1 < (_chunk_text text c).length →
        ((_chunk_text text c).get ⟨i, h⟩).length = c) ∧
    (_chunk_text text c).flatten = text := by
  have hget : ∀ (i : Nat) (h : i < (_chunk_text text c).length),
      (_chunk_text text c).get ⟨i, h⟩ = (text.drop (i * c)).take c := by
    intro i h
    have h' := h
    rw [chunk_text_length text c hc] at h'
    simp only [List.get_eq_getElem]
    rw [List.getElem_of_eq (chunk_text_closed_form text c hc) h,
      List.getElem_map, List.getElem_range]
  refine ⟨chunk_text_length text c hc, ?_, ?_, hget, ?_, chunk_text_join text c hc⟩
  · intro hnil
    subst hnil
    rfl
  · rw [chunk_text_closed_form text c hc]
    intro ch hch
    rcases List.mem_map.mp hch with ⟨i, hi, rfl⟩
    have hiK : i < (text.length + c - 1) / c := List.mem_range.mp hi
    have hb := chunk_index_bound text.length c i hc hiK
    intro hnil
    have hzero : ((text.drop (i * c)).take c).length = 0 := by
      rw [hnil]
      rfl
    rw [List.length_take, List.length_drop] at hzero
    omega
  · intro i h hi1
    rw [hget i h, List.length_take, List.length_drop]
    rw [chunk_text_length text c hc] at hi1
    have hb := chunk_index_bound text.length c (i + 1) hc hi1
    have h3 : (i + 1) * c = i * c + c := Nat.succ_mul i c
    omega

/-- Witness for C3: concrete text of 6 characters, chunk size 4. -/
theorem C3_chunk_text_spec_witness :
    (_chunk_text "hello!".toList 4).flatten = "hello!".toList :=
  (C3_chunk_text_spec "hello!".toList 4 (by decide)).2.2.2.2.2

/-! Lemmas for the retriever search path (claim C1). -/

/-- The `-1` padding entries never pass the sentinel filter. -/
theorem filter_sentinel_replicate (n : Nat) :
    (List.replicate n ((0 : Int), (-1 : Int))).filter
      (fun p => p.2 != -1) = [] := by
  induction n with
  | zero => rfl
  | succ n ih => simp [List.replicate_succ, ih]

/-- The sentinel filter keeps exactly the genuine top-k entries: all indices
produced by the scoring pass are nonnegative, so only padding is removed. -/
theorem index_search_filter_eq (db : List Vec) (qv : Vec) (k : Nat) :
    (index_search db qv k).filter (fun p => p.2 != -1) =
      ((db.enum.map (fun p => (sqDist qv p.2, (p.1 : Int)))).mergeSort
        (fun a b => decide (a.1 ≤ b.1))).take k := by
  unfold index_search
  rw [List.filter_append, filter_sentinel_replicate, List.append_nil]
  apply List.filter_eq_self.mpr
  intro a ha
  have hmem : a ∈ (db.enum.map
      (fun p => (sqDist qv p.2, (p.1 : Int)))).mergeSort
        (fun a b => decide (a.1 ≤ b.1)) :=
    List.mem_of_mem_take ha
  rcases List.mem_map.mp (List.mem_mergeSort.mp hmem) with ⟨d, _, rfl⟩
  simp

/-- C1: `search_documents` returns results ordered by non-decreasing L2
distance, of length `min top_k n` where n is the corpus size; the `-1`
sentinel entries are skipped rather than padded, so the result list is at
most `top_k` long and shorter than `top_k` exactly when the corpus holds
fewer than `top_k` vectors. -/
theorem C1_search_documents_spec (db : List Vec) (docs : List Document)
    (ci : List ChunkInfo) (qv : Vec) (top_k : Nat) :
    List.Sorted (· ≤ ·)
      ((search_documents ⟨db, docs, ci⟩ qv top_k).map QueryResult.score) ∧
    (search_documents ⟨db, docs, ci⟩ qv top_k).length = min top_k db.length ∧
    (search_documents ⟨db, docs, ci⟩ qv top_k).length ≤ top_k ∧
    ((search_documents ⟨db, docs, ci⟩ qv top_k).length < top_k ↔
      db.length < top_k) := by
  have hres : search_documents ⟨db, docs, ci⟩ qv top_k =
      (((db.enum.map (fun p => (sqDist qv p.2, (p.1 : Int)))).mergeSort
        (fun a b => decide (a.1 ≤ b.1))).take top_k).map (fun p =>
          let c := ci.getD p.2.toNat default
          { id := c.doc_id, chunk_idx := c.chunk_idx, text := c.text,
            score := p.1 : QueryResult }) := by
    unfold search_documents
    rw [index_search_filter_eq]
  have hlen : (search_documents ⟨db, docs, ci⟩ qv top_k).length =
      min top_k db.length := by
    rw [hres]
    simp [List.length_take, List.length_mergeSort]
  have hsorted : List.Sorted (· ≤ ·)
      ((search_documents ⟨db, docs, ci⟩ qv top_k).map QueryResult.score) := by
    rw [hres, List.map_map]
    have hpw : List.Pairwise
        (fun a b : Int × Int => decide (a.1 ≤ b.1) = true)
        ((db.enum.map (fun p => (sqDist qv p.2, (p.1 : Int)))).mergeSort
          (fun a b => decide (a.1 ≤ b.1))) := by
      apply List.sorted_mergeSort
      · intro a b c hab hbc
        simp only [decide_eq_true_eq] at *
        omega
      · intro a b
        simp [Int.le_total]
    have hpwtake := hpw.sublist (List.take_sublist top_k _)
    rw [List.Sorted, List.pairwise_map]
    exact hpwtake.imp (fun h => by simpa using h)
  exact ⟨hsorted, hlen, by omega, by omega⟩


/-! Lemmas for the embedding builder (claims C2 and C10). -/

/-- Mapping over the second components of an enumeration is mapping over the
list itself. -/
theorem enum_map_snd_apply {α β : Type} (l : List α) (g : α → β) :
    l.enum.map (fun p => g p.2) = l.map g := by
  have h1 : l.enum.map (fun p => g p.2) = (l.enum.map Prod.snd).map g := by
    rw [List.map_map]
    rfl
  rw [h1, List.enum_map_snd]

/-- Length of the per-document filterMap pass: one output per successfully
embedded chunk, independently of the enumeration offset. -/
theorem enum_filterMap_length {α β : Type} (emb : α → Option Vec)
    (mk : Nat → α → Vec → β) :
    ∀ (l : List α) (n : Nat),
      ((List.enumFrom n l).filterMap
        (fun ch => (emb ch.2).map (mk ch.1 ch.2))).length =
      l.countP (fun ch => (emb ch).isSome) := by
  intro l
  induction l with
  | nil => intro n; rfl
  | cons a l ih =>
    intro n
    rw [List.enumFrom_cons, List.filterMap_cons, List.countP_cons]
    cases h : emb a with
    | none => simp [h, ih]
    | some v => simp [h, ih]

/-- Counting over a flattened list is the sum of the per-element counts. -/
theorem countP_flatMap_sum {α β : Type} (l : List α) (f : α → List β)
    (p : β → Bool) :
    (l.flatMap f).countP p = (l.map (fun a => (f a).countP p)).sum := by
  induction l with
  | nil => rfl
  | cons a l ih => simp [List.countP_append, ih]

/-- The paired appends number exactly the chunks, over all documents in
order, whose embedding succeeded. -/
theorem createPairs_length (docs : List Document)
    (embed : List Char → Option Vec) :
    (createPairs docs embed).length =
      (docs.flatMap (fun d => _chunk_text d.text 1000)).countP
        (fun ch => (embed ch).isSome) := by
  unfold createPairs
  rw [List.length_flatMap, countP_flatMap_sum]
  have hmap : docs.enum.map (List.length ∘ (fun d =>
      (_chunk_text d.2.text 1000).enum.filterMap (fun ch =>
        (embed ch.2).map (fun v =>
          (v, (⟨d.1, d.2.id, d.2.dtype, ch.1, ch.2⟩ : ChunkInfo)))))) =
      docs.enum.map (fun d =>
        (_chunk_text d.2.text 1000).countP (fun ch => (embed ch).isSome)) := by
    apply List.map_congr_left
    intro d _
    exact enum_filterMap_length embed
      (fun i c v => (v, (⟨d.1, d.2.id, d.2.dtype, i, c⟩ : ChunkInfo)))
      (_chunk_text d.2.text 1000) 0
  rw [hmap, enum_map_snd_apply docs
    (fun d => (_chunk_text d.text 1000).countP (fun ch => (embed ch).isSome))]

/-- Every paired append carries the vector of its own chunk record: the
record's text embeds to exactly the paired vector, and the record's
`doc_idx`/`chunk_idx` address that text inside the chunking of the named
document. -/
theorem createPairs_mem (docs : List Document)
    (embed : List Char → Option Vec) (pr : Vec × ChunkInfo)
    (hpr : pr ∈ createPairs docs embed) :
    embed pr.2.text = some pr.1 ∧
    ∃ d, docs[pr.2.doc_idx]? = some d ∧ d.id = pr.2.doc_id ∧
      d.dtype = pr.2.doc_type ∧
      (_chunk_text d.text 1000)[pr.2.chunk_idx]? = some pr.2.text := by
  unfold createPairs at hpr
  rcases List.mem_flatMap.mp hpr with ⟨dp, hdp, hin⟩
  obtain ⟨di, d⟩ := dp
  rcases List.mem_filterMap.mp hin with ⟨cp, hcp, heq⟩
  obtain ⟨ci, ch⟩ := cp
  rcases Option.map_eq_some'.mp heq with ⟨v, hv, hpr_eq⟩
  subst hpr_eq
  obtain ⟨hdi, hd⟩ := List.mem_enum hdp
  obtain ⟨hci, hch⟩ := List.mem_enum hcp
  refine ⟨hv, d, ?_, rfl, rfl, ?_⟩
  · rw [List.getElem?_eq_getElem hdi, ← hd]
  · rw [List.getElem?_eq_getElem hci, ← hch]

/-- C2: after `create_embeddings`, the embeddings list and the chunk
metadata list have the same length N, N counts exactly the chunks that
embedded successfully, the i-th chunk record describes exactly the chunk
whose vector sits at position i (same position in both lists, matching
embedding, correct document and chunk address), and the saved index holds
exactly these N vectors. -/
theorem C2_create_embeddings_aligned (docs : List Document)
    (embed : List Char → Option Vec) :
    (create_embeddings docs embed).embeddings.length =
      (create_embeddings docs embed).chunks_info.length ∧
    (create_embeddings docs embed).chunks_info.length =
      (docs.flatMap (fun d => _chunk_text d.text 1000)).countP
        (fun ch => (embed ch).isSome) ∧
    (∀ pr ∈ (create_embeddings docs embed).embeddings.zip
        (create_embeddings docs embed).chunks_info,
      embed pr.2.text = some pr.1 ∧
      ∃ d, docs[pr.2.doc_idx]? = some d ∧ d.id = pr.2.doc_id ∧
        d.dtype = pr.2.doc_type ∧
        (_chunk_text d.text 1000)[pr.2.chunk_idx]? = some pr.2.text) ∧
    (∀ fs, save_to_vector_store (create_embeddings docs embed) = some fs →
      fs.indexFile = some (create_embeddings docs embed).embeddings) := by
  have hzip : (create_embeddings docs embed).embeddings.zip
      (create_embeddings docs embed).chunks_info = createPairs docs embed := by
    simp [create_embeddings, List.zip_map']
  refine ⟨by simp [create_embeddings], ?_, ?_, ?_⟩
  · simp [create_embeddings, createPairs_length]
  · intro pr hpr
    exact createPairs_mem docs embed pr (hzip ▸ hpr)
  · intro fs hfs
    unfold save_to_vector_store at hfs
    by_cases h : (create_embeddings docs embed).embeddings.isEmpty
    · simp [h] at hfs
    · simp [h] at hfs
      rw [← hfs]

/-- Witness for C2: one single-chunk document, an embedding oracle mapping a
chunk to its length, a saved store holding exactly that vector. -/
theorem C2_create_embeddings_aligned_witness :
    (FS.mk (some [[(2 : Int)]])
        (some ([{ docAB with chunks_count := some 1 }],
               [⟨0, "a.txt", "txt", 0, ['a', 'b']⟩]))).indexFile =
      some (create_embeddings [docAB] embedLen).embeddings :=
  (C2_create_embeddings_aligned [docAB] embedLen).2.2.2 _ (by decide)

set_option maxRecDepth 20000 in
/-- C10: `create_embeddings` records `chunks_count` as the total number of
chunks the chunker produced from each document's text, even when some chunk
embeddings failed and were skipped, so the count can strictly exceed the
number of stored chunk records for that document; and
`list_available_documents` reports exactly this recorded count.  The closing
conjunct exhibits the strict excess on a 1001-character document whose
second chunk fails to embed: recorded count 2, stored records 1, reported
count 2. -/
theorem C10_chunks_count_spec (docs : List Document)
    (embed : List Char → Option Vec) :
    (create_embeddings docs embed).documents.length = docs.length ∧
    (∀ (i : Nat) (h : i < docs.length),
      (create_embeddings docs embed).documents[i]? =
        some { docs.get ⟨i, h⟩ with
               chunks_count := some (_chunk_text (docs.get ⟨i, h⟩).text 1000).length }) ∧
    ((list_available_documents
        (create_embeddings docs embed).documents).documents =
      (create_embeddings docs embed).documents.map (fun d =>
        (⟨d.id, d.source, d.text.length, d.chunks_count.getD 0⟩
          : DocListing))) ∧
    ((((create_embeddings [docBig] embedOnlyFull).documents.getD
          0 default).chunks_count.getD 0 = 2 ∧
     ((create_embeddings [docBig] embedOnlyFull).chunks_info.filter
          (fun r => r.doc_idx == 0)).length = 1)) := by
  refine ⟨by simp [create_embeddings], ?_, rfl, by decide, by decide⟩
  intro i h
  have hmap : (create_embeddings docs embed).documents = docs.map (fun d =>
      { d with chunks_count := some (_chunk_text d.text 1000).length }) := rfl
  rw [hmap, List.getElem?_map, List.getElem?_eq_getElem h]
  rfl

/-- Witness for C10: the per-document count equation at index 0 of a
one-document corpus. -/
theorem C10_chunks_count_spec_witness :
    (create_embeddings [docA] embedLen).documents[0]? =
      some { docA with chunks_count := some 1 } := by
  have h := (C10_chunks_count_spec [docA] embedLen).2.1 0 (by decide)
  exact h.trans (by decide)

/-- Scanning text that nowhere contains the literal "FUNCTION_CALL[" finds
no match. -/
theorem findFunctionCall_eq_none (s : List Char)
    (h : ¬ "FUNCTION_CALL[".toList <:+: s) : findFunctionCall s = none := by
  induction s with
  | nil => rfl
  | cons c rest ih =>
    have hpre : ("FUNCTION_CALL[".toList).isPrefixOf (c :: rest) = false := by
      by_contra hcon
      have : ("FUNCTION_CALL[".toList).isPrefixOf (c :: rest) = true := by
        revert hcon
        cases ("FUNCTION_CALL[".toList).isPrefixOf (c :: rest) <;> simp
      exact h (List.isPrefixOf_iff_prefix.mp this).isInfix
    have hrest : ¬ "FUNCTION_CALL[".toList <:+: rest :=
      fun hinf => h (hinf.trans (List.suffix_cons c rest).isInfix)
    simp only [findFunctionCall, hpre, Bool.false_eq_true, if_false]
    exact ih hrest

/-- C4: `parse_function_call` detects the fixed FUNCTION_CALL[name](args)
pattern, uses only the first match when several occur, splits the argument
string on commas into stripped key:value pairs (splitting each pair at its
first colon), assigns a pair lacking a colon to the fallback key "value",
parses the spec's concrete input to search_documents with
args {query: "cats", top_k: "3"}, and reports no detection when the pattern
is absent. -/
theorem C4_parse_function_call_spec :
    parse_function_call
        "...FUNCTION_CALL[search_documents](query:cats, top_k:3)...".toList =
      .call "search_documents" [("query", "cats"), ("top_k", "3")] ∧
    parse_function_call "no call here".toList = .noCall ∧
    parse_function_call
        "FUNCTION_CALL[get_current_time]() and FUNCTION_CALL[open_browser](url:x.com)".toList =
      .call "get_current_time" [] ∧
    parse_function_call "FUNCTION_CALL[open_browser](example.com)".toList =
      .call "open_browser" [("value", "example.com")] ∧
    (∀ s : List Char, ¬ "FUNCTION_CALL[".toList <:+: s →
      parse_function_call s = .noCall) := by
  refine ⟨by decide, by decide, by decide, by decide, ?_⟩
  intro s hs
  unfold parse_function_call
  rw [findFunctionCall_eq_none s hs]

/-- Witness for C4: a pattern-free text parses to no detection. -/
theorem C4_parse_function_call_spec_witness :
    parse_function_call "hello world".toList = .noCall :=
  C4_parse_function_call_spec.2.2.2.2 "hello world".toList (by decide)

/-- C5: the dispatcher forwards exactly the declared parameters present in
the parsed arguments — every other parsed argument is dropped — each raw
string coerced to an integer exactly when it consists solely of digits;
the callee runs on precisely these processed arguments. -/
theorem C5_execute_function_forwarding
    (impl : String → List (String × PyVal) → Except String PyVal)
    (name : String) (params : List String) (args : List (String × String))
    (hreg : registered_functions.lookup name = some params) :
    (execute_function impl name args =
      match impl name (processed_args params args) with
      | .ok v => .ok v
      | .error e => .errorPayload ("Error executing function: " ++ e)) ∧
    (∀ kv ∈ processed_args params args,
      kv.1 ∈ params ∧ ∃ raw, args.lookup kv.1 = some raw ∧
        kv.2 = (if pyIsDigit raw then PyVal.int (digitsToNat raw)
                else PyVal.str raw)) ∧
    (∀ p ∈ params, ∀ raw, args.lookup p = some raw →
      (p, coerce_arg raw) ∈ processed_args params args) ∧
    (∀ k, k ∉ params → ∀ v, (k, v) ∉ processed_args params args) := by
  refine ⟨by simp [execute_function, hreg], ?_, ?_, ?_⟩
  · intro kv hkv
    rcases List.mem_filterMap.mp hkv with ⟨p, hp, hmap⟩
    rcases Option.map_eq_some'.mp hmap with ⟨raw, hraw, hkv_eq⟩
    subst hkv_eq
    exact ⟨hp, raw, hraw, rfl⟩
  · intro p hp raw hraw
    exact List.mem_filterMap.mpr ⟨p, hp, by simp [hraw]⟩
  · intro k hk v hmem
    rcases List.mem_filterMap.mp hmem with ⟨p, hp, hmap⟩
    rcases Option.map_eq_some'.mp hmap with ⟨raw, _, hkv_eq⟩
    have : p = k := congrArg Prod.fst hkv_eq
    exact hk (this ▸ hp)

/-- Witness for C5: dispatching search_documents with an extra undeclared
argument that is dropped; the digit string is coerced downstream. -/
theorem C5_execute_function_forwarding_witness :
    execute_function (fun _ a => .ok (.str (toString a.length)))
        "search_documents" [("query", "cats"), ("top_k", "3"), ("junk", "x")] =
      .ok (.str "2") := by
  have h := (C5_execute_function_forwarding
    (fun _ a => .ok (.str (toString a.length))) "search_documents"
    ["query", "top_k"] [("query", "cats"), ("top_k", "3"), ("junk", "x")]
    (by decide)).1
  exact h.trans (by decide)

/-- C6: `execute_function` never raises: an unregistered name returns the
structured not-found error payload, and a callee failure returns the
structured execution-error payload. -/
theorem C6_execute_function_no_raise
    (impl : String → List (String × PyVal) → Except String PyVal)
    (name : String) (args : List (String × String)) :
    (registered_functions.lookup name = none →
      execute_function impl name args =
        .errorPayload ("Function " ++ name ++ " not found")) ∧
    (∀ params e, registered_functions.lookup name = some params →
      impl name (processed_args params args) = .error e →
      execute_function impl name args =
        .errorPayload ("Error executing function: " ++ e)) := by
  constructor
  · intro h
    simp [execute_function, h]
  · intro params e h1 h2
    simp [execute_function, h1, h2]

/-- Witness for C6: an unknown function name and a raising callee each give
the error payload. -/
theorem C6_execute_function_no_raise_witness :
    execute_function (fun _ _ => .ok (.str "r")) "bogus" [] =
      .errorPayload ("Function " ++ "bogus" ++ " not found") ∧
    execute_function (fun _ _ => .error "boom") "get_current_time" [] =
      .errorPayload ("Error executing function: " ++ "boom") :=
  ⟨(C6_execute_function_no_raise (fun _ _ => .ok (.str "r")) "bogus" []).1
      (by decide),
   (C6_execute_function_no_raise (fun _ _ => .error "boom")
      "get_current_time" []).2 [] "boom" (by decide) rfl⟩

/-- C7: saving a store and loading the two companion artifacts is a
round-trip: the loaded retriever holds the same vectors, documents and
chunk records, so `search_documents` on it agrees with the pre-save
retriever for every query vector and every `top_k`. -/
theorem C7_save_load_round_trip (st : TrainState) (fs : FS) (path : String)
    (hsave : save_to_vector_store st = some fs) :
    ∃ r, load_vector_store fs path = .ok r ∧
      r.db = st.embeddings ∧ r.documents = st.documents ∧
      r.chunks_info = st.chunks_info ∧
      ∀ qv top_k, search_documents r qv top_k =
        search_documents ⟨st.embeddings, st.documents, st.chunks_info⟩
          qv top_k := by
  unfold save_to_vector_store at hsave
  by_cases h : st.embeddings.isEmpty
  · simp [h] at hsave
  · simp [h] at hsave
    subst hsave
    exact ⟨⟨st.embeddings, st.documents, st.chunks_info⟩, rfl, rfl, rfl, rfl,
      fun _ _ => rfl⟩

/-- Witness for C7: a one-vector store saves and reloads to the identical
retriever. -/
theorem C7_save_load_round_trip_witness :
    load_vector_store ⟨some [[(1 : Int)]], some ([], [])⟩
        "data/vector_store" = .ok ⟨[[(1 : Int)]], [], []⟩ := by
  obtain ⟨r, h1, h2, h3, h4, -⟩ :=
    C7_save_load_round_trip ⟨[], [[(1 : Int)]], []⟩
      ⟨some [[(1 : Int)]], some ([], [])⟩ "data/vector_store" (by decide)
  cases r
  simp only at h2 h3 h4
  subst h2
  subst h3
  subst h4
  exact h1

/-- C8: `load_vector_store` fails with a not-found error whenever either
companion artifact is absent — in particular when only the metadata blob
exists — producing no partial store, and succeeds exactly when both files
exist, exposing precisely their contents. -/
theorem C8_load_vector_store_spec (fs : FS) (path : String) :
    ((fs.indexFile = none ∨ fs.pklFile = none) →
      ∃ e, load_vector_store fs path = .error e) ∧
    (fs.indexFile = none →
      load_vector_store fs path =
        .error ("Vector store not found at " ++ path ++ ".index")) ∧
    (∀ db, fs.indexFile = some db → fs.pklFile = none →
      load_vector_store fs path =
        .error ("Vector store data not found at " ++ path ++ ".pkl")) ∧
    (∀ db docs ci, fs.indexFile = some db → fs.pklFile = some (docs, ci) →
      load_vector_store fs path = .ok ⟨db, docs, ci⟩) ∧
    (∀ r, load_vector_store fs path = .ok r →
      fs.indexFile = some r.db ∧
        fs.pklFile = some (r.documents, r.chunks_info)) := by
  obtain ⟨ix, pk⟩ := fs
  refine ⟨?_, ?_, ?_, ?_, ?_⟩
  · rintro (h | h) <;> subst h
    · exact ⟨_, rfl⟩
    · cases ix with
      | none => exact ⟨_, rfl⟩
      | some db => exact ⟨_, rfl⟩
  · rintro rfl
    rfl
  · rintro db rfl rfl
    rfl
  · rintro db docs ci rfl rfl
    rfl
  · intro r hr
    cases ix with
    | none => exact absurd hr (by simp [load_vector_store])
    | some db =>
      cases pk with
      | none => exact absurd hr (by simp [load_vector_store])
      | some d =>
        have : r = ⟨db, d.1, d.2⟩ := by
          have := hr
          simp [load_vector_store] at this
          exact this.symm
        subst this
        exact ⟨rfl, rfl⟩

/-- Witness for C8: the spec's missing-artifact scenario — only the
metadata blob exists — raises the index not-found error. -/
theorem C8_load_vector_store_spec_witness :
    load_vector_store ⟨none, some ([], [])⟩ "data/vector_store" =
      .error ("Vector store not found at " ++ "data/vector_store"
        ++ ".index") :=
  (C8_load_vector_store_spec ⟨none, some ([], [])⟩ "data/vector_store").2.1
    rfl

/-- Counterexample to C9 as stated: when the generation call fails, the
`generate_response` of `LLM/main.py` returns the bare string
"Error saat menghasilkan respons: ..." which does not begin with a Markdown
"# Error" heading. -/
theorem C9_counterexample :
    main_generate_response (fun _ _ => .ok (.str "r")) (.error "boom")
        (fun _ => .ok "t") = "Error saat menghasilkan respons: boom" ∧
    ¬ ∃ s, main_generate_response (fun _ _ => .ok (.str "r")) (.error "boom")
        (fun _ => .ok "t") = "# Error" ++ s := by
  refine ⟨rfl, ?_⟩
  rintro ⟨s, hs⟩
  have h0 : main_generate_response (fun _ _ => .ok (.str "r")) (.error "boom")
      (fun _ => .ok "t") = "Error saat menghasilkan respons: boom" := rfl
  rw [h0] at hs
  have h1 : "Error saat menghasilkan respons: boom".data =
      "# Error".data ++ s.data := by
    rw [hs, String.data_append]
  have e1 : "Error saat menghasilkan respons: boom".data =
      'E' :: "rror saat menghasilkan respons: boom".data := by decide
  have e2 : "# Error".data = '#' :: " Error".data := by decide
  rw [e1, e2, List.cons_append] at h1
  injection h1 with h1a _
  exact absurd h1a (by decide)

/-- C9 amended: the app-variant error paths (`rag.py` `generate_response`
and `process_query`) return Markdown text headed "# Error"; the
`LLM/main.py` `generate_response` error path instead returns a bare string
beginning "Error saat menghasilkan respons: " with no Markdown heading. -/
theorem C9_amended_error_markdown (e query : String)
    (chunks : List QueryResult)
    (impl : String → List (String × PyVal) → Except String PyVal)
    (gen : Except String String) (gen2 : ExecResult → Except String String) :
    (∃ s, rag_generate_response (.error e) query chunks =
      "# Error\n\n" ++ s) ∧
    (∃ s, rag_process_query (.error e) gen query = "# Error\n\n" ++ s) ∧
    (∃ s, main_generate_response impl (.error e) gen2 =
      "Error saat menghasilkan respons: " ++ s) :=
  ⟨⟨"Error saat menghasilkan respons: " ++ e, rfl⟩,
   ⟨"Terjadi kesalahan saat memproses query: " ++ e, rfl⟩,
   ⟨e, rfl⟩⟩

end INARA
